import Mathlib

/-!
Verification of the restaurant ranking and preference-scoring engine of
`llm_restaurant_recommender/utils/ranking.py`.

The embedding models Python/pandas values shallowly:
* Python floats are modelled by `ℚ`, with the IEEE value NaN represented
  explicitly (`Val.nan` for cells, `Option ℚ` with `none` for a NaN
  distance or coordinate), since the source relies on NaN propagation.
* A pandas cell is a `Val`; a missing column or a Python `None` cell is
  `Val.none`, a missing numeric value inside an existing column is
  `Val.nan`.
* Exceptions are modelled with `Except PyErr`.
* Library functions used by the source (`float` on strings,
  `pd.to_numeric(errors := coerce)` applied cell-wise,
  `ast.literal_eval`, `Series.str.contains` with its default regex
  semantics) are modelled by executable Lean functions on the fragment
  of inputs the claims exercise; each model states its restriction in
  its doc comment.
-/

namespace Recommender

/-- Python exception kinds that `rank_restaurants` and its helpers can raise. -/
inductive PyErr where
  | valueErrorNoLatLon
  | valueErrorFloat
  | keyErrorCuisine
  | attributeErrorGet
deriving DecidableEq, Repr

/-- A Python value as it can appear in a pandas cell or inside a parsed
tags literal.  `Val.none` models both a missing column and the Python
value `None`; `Val.nan` models the float NaN that pandas stores for a
missing value of an existing column. -/
inductive Val where
  | none
  | nan
  | num (q : ℚ)
  | str (s : String)
  | list (items : List Val)
  | dict (entries : List (String × Val))

/-- Python truthiness (`bool(v)`): `None`, `0`, the empty string, the
empty list and the empty dict are falsy; NaN is truthy. -/
def Val.truthy : Val → Bool
  | .none => false
  | .nan => true
  | .num q => q != 0
  | .str s => s != ""
  | .list items => !items.isEmpty
  | .dict entries => !entries.isEmpty

/-- Python `a or b`: returns `a` when `a` is truthy, else `b`. -/
def Val.orPy (a b : Val) : Val := if a.truthy then a else b

/-- Python `dict.get(k)` with default `None`; with duplicate keys the
last binding wins, as in a Python dict display. -/
def Val.dictGet (entries : List (String × Val)) (k : String) : Val :=
  match entries.reverse.find? (fun e => e.1 == k) with
  | some e => e.2
  | Option.none => Val.none

/-- Python `str.lower()` (ASCII case folding), as a kernel-reducible
list-based function. -/
def strLower (s : String) : String := String.mk (s.data.map Char.toLower)

/-- Python `str.strip()` (whitespace at both ends), as a kernel-reducible
list-based function. -/
def strStrip (s : String) : String :=
  String.mk (((s.data.dropWhile Char.isWhitespace).reverse.dropWhile Char.isWhitespace).reverse)

/-- Value of a non-empty list of decimal digits. -/
def digitsVal (cs : List Char) : Nat :=
  cs.foldl (fun n c => 10 * n + (c.toNat - 48)) 0

/-- Parse a non-empty all-digit character list. -/
def parseDigits (cs : List Char) : Option Nat :=
  if cs.isEmpty then Option.none
  else if cs.all Char.isDigit then some (digitsVal cs)
  else Option.none

/-- Unsigned decimal of the forms `12`, `12.`, `.5`, `1.5`. -/
def parseUnsignedFloat (cs : List Char) : Option ℚ :=
  let intPart := cs.takeWhile (fun c => c != '.')
  let rest := cs.dropWhile (fun c => c != '.')
  match rest with
  | [] => (parseDigits intPart).map (fun n => (n : ℚ))
  | _ :: fracPart =>
    if fracPart.any (fun c => c == '.') then Option.none
    else if intPart.isEmpty then
      (parseDigits fracPart).map (fun n => (n : ℚ) / (10 : ℚ) ^ fracPart.length)
    else if fracPart.isEmpty then
      (parseDigits intPart).map (fun n => (n : ℚ))
    else
      match parseDigits intPart, parseDigits fracPart with
      | some i, some f => some ((i : ℚ) + (f : ℚ) / (10 : ℚ) ^ fracPart.length)
      | _, _ => Option.none

/-- Python `float(s)` on a string: surrounding whitespace is stripped, an
optional sign is followed by a plain decimal numeral.  Restriction of the
model: exponents, underscores and the special spellings inf and nan are
not modelled. -/
def pyFloatOfString (s : String) : Option ℚ :=
  let cs := (strStrip s).toList
  match cs with
  | '+' :: rest => parseUnsignedFloat rest
  | '-' :: rest => (parseUnsignedFloat rest).map (fun q => -q)
  | _ => parseUnsignedFloat cs

/-- Python `float(v)`: numbers pass through, NaN stays NaN (`Option.none`
in the payload), strings are parsed, everything else raises
(`TypeError`/`ValueError`, merged into one error constructor). -/
def pyFloat : Val → Except PyErr (Option ℚ)
  | .num q => .ok (some q)
  | .nan => .ok Option.none
  | .str s =>
    match pyFloatOfString s with
    | some q => .ok (some q)
    | Option.none => .error .valueErrorFloat
  | _ => .error .valueErrorFloat

/-- One cell under `pd.to_numeric(col, errors := coerce)`: numbers pass
through, numeric strings are parsed, everything else (including NaN and
`None`) becomes NaN, modelled as `Option.none`. -/
def toNumeric : Val → Option ℚ
  | .num q => some q
  | .str s => pyFloatOfString s
  | _ => Option.none

/-- Drop leading spaces. -/
def skipWs : List Char → List Char
  | c :: cs => if c == ' ' then skipWs cs else c :: cs
  | [] => []

/-- Parse a double-quoted string literal without escape sequences. -/
def parseStrLit : List Char → Option (String × List Char)
  | c :: cs =>
    if c == '\x22' then
      let body := cs.takeWhile (fun d => d != '\x22')
      let rest := cs.dropWhile (fun d => d != '\x22')
      match rest with
      | _ :: rest2 => some (String.mk body, rest2)
      | [] => Option.none
    else Option.none
  | [] => Option.none

/-- Unsigned numeric literal, leaving the unconsumed remainder. -/
def parseNumBody (cs : List Char) : Option (ℚ × List Char) :=
  let ip := cs.takeWhile Char.isDigit
  let r1 := cs.dropWhile Char.isDigit
  if ip.isEmpty then Option.none
  else
    match r1 with
    | '.' :: r2 =>
      let fp := r2.takeWhile Char.isDigit
      let r3 := r2.dropWhile Char.isDigit
      some ((digitsVal ip : ℚ) + (digitsVal fp : ℚ) / (10 : ℚ) ^ fp.length, r3)
    | _ => some ((digitsVal ip : ℚ), r1)

/-- Signed numeric literal. -/
def parseNumLit (cs : List Char) : Option (ℚ × List Char) :=
  match cs with
  | '-' :: rest => (parseNumBody rest).map (fun p => (-p.1, p.2))
  | _ => parseNumBody cs

mutual

/-- Recursive-descent parser for the Python literal grammar used by
`ast.literal_eval`, on the fragment: `None`, signed decimal numbers,
double-quoted strings without escapes, lists, and dicts with string
keys.  The `Nat` argument is recursion fuel. -/
def parseVal : Nat → List Char → Option (Val × List Char)
  | 0, _ => Option.none
  | fuel + 1, cs0 =>
    let cs := skipWs cs0
    match cs with
    | [] => Option.none
    | c :: rest =>
      if c == 'N' then
        match cs with
        | 'N' :: 'o' :: 'n' :: 'e' :: r => some (Val.none, r)
        | _ => Option.none
      else if c == '\x22' then
        (parseStrLit cs).map (fun p => (Val.str p.1, p.2))
      else if c == '[' then
        parseListRest fuel (skipWs rest)
      else if c == '\x7b' then
        parseDictRest fuel (skipWs rest)
      else
        (parseNumLit cs).map (fun p => (Val.num p.1, p.2))

/-- After an opening bracket: empty list or items. -/
def parseListRest : Nat → List Char → Option (Val × List Char)
  | 0, _ => Option.none
  | fuel + 1, cs =>
    match cs with
    | ']' :: r => some (Val.list [], r)
    | _ =>
      match parseListItems fuel cs with
      | some (items, r) => some (Val.list items, r)
      | Option.none => Option.none

/-- One or more comma-separated list items, ending at a closing bracket. -/
def parseListItems : Nat → List Char → Option (List Val × List Char)
  | 0, _ => Option.none
  | fuel + 1, cs =>
    match parseVal fuel cs with
    | Option.none => Option.none
    | some (v, r) =>
      match skipWs r with
      | ',' :: r2 =>
        match parseListItems fuel (skipWs r2) with
        | some (items, r3) => some (v :: items, r3)
        | Option.none => Option.none
      | ']' :: r2 => some ([v], r2)
      | _ => Option.none

/-- After an opening brace: empty dict or entries. -/
def parseDictRest : Nat → List Char → Option (Val × List Char)
  | 0, _ => Option.none
  | fuel + 1, cs =>
    match cs with
    | '\x7d' :: r => some (Val.dict [], r)
    | _ =>
      match parseDictItems fuel cs with
      | some (entries, r) => some (Val.dict entries, r)
      | Option.none => Option.none

/-- One or more comma-separated `key : value` entries with string keys,
ending at a closing brace. -/
def parseDictItems : Nat → List Char → Option (List (String × Val) × List Char)
  | 0, _ => Option.none
  | fuel + 1, cs =>
    match parseStrLit (skipWs cs) with
    | Option.none => Option.none
    | some (k, r) =>
      match skipWs r with
      | ':' :: r2 =>
        match parseVal fuel (skipWs r2) with
        | Option.none => Option.none
        | some (v, r3) =>
          match skipWs r3 with
          | ',' :: r4 =>
            match parseDictItems fuel (skipWs r4) with
            | some (entries, r5) => some ((k, v) :: entries, r5)
            | Option.none => Option.none
          | '\x7d' :: r4 => some ([(k, v)], r4)
          | _ => Option.none
      | _ => Option.none

end

/-- `ast.literal_eval(s)`: parse the whole string as one literal, on the
grammar fragment of `parseVal`. -/
def literal_eval (s : String) : Option Val :=
  match parseVal (s.length + 2) s.toList with
  | some (v, r) => if (skipWs r).isEmpty then some v else Option.none
  | Option.none => Option.none

/-- `_safe_parse_tags(raw)` from the source: a dict passes through, a
non-string non-dict becomes the empty dict, and a string is handed to
`ast.literal_eval`, with the empty dict on a parse failure.  Note that a
string whose literal value is not a dict is returned as that value. -/
def safe_parse_tags : Val → Val
  | .dict entries => .dict entries
  | .str s =>
    match literal_eval s with
    | some v => v
    | Option.none => .dict []
  | _ => .dict []

/-- One row of the candidate table.  Cells are `Val`s; the `cuisine`
column is modelled as string-or-missing because the source only ever
feeds it to `fillna` and `Series.str` operations. -/
structure Row where
  lat : Val
  lon : Val
  cuisine : Option String
  price_range : Val
  price : Val
  average_price : Val
  avg_price : Val
  tags : Val
  rating : Val
  distance_m : Val

/-- Rule 1 of `_infer_price_bucket`: the `price_range` cell, when it is a
non-blank string among the recognized spellings, mapped through the
Spanish-synonym dict. -/
def priceRangeRule (v : Val) : Option String :=
  match v with
  | Val.str s =>
    if strStrip s != "" then
      let normalized := strLower (strStrip s)
      if normalized == "low" || normalized == "medio" || normalized == "medium" ||
          normalized == "high" || normalized == "alto" || normalized == "bajo" then
        if normalized == "medio" then some "medium"
        else if normalized == "alto" then some "high"
        else if normalized == "bajo" then some "low"
        else some normalized
      else Option.none
    else Option.none
  | _ => Option.none

/-- Rule 2 of `_infer_price_bucket`: the symbolic `price` cell, first
looked up in `PRICE_SYMBOLS`, then lowered and accepted when it is
already a bucket word. -/
def priceSymbolRule (v : Val) : Option String :=
  match v with
  | Val.str s =>
    if strStrip s != "" then
      let cleaned := strStrip s
      if cleaned == "$" then some "low"
      else if cleaned == "$$" then some "medium"
      else if cleaned == "$$$" then some "high"
      else if cleaned == "$$$$" then some "high"
      else
        let lowered := strLower cleaned
        if lowered == "low" || lowered == "medium" || lowered == "high" then some lowered
        else Option.none
    else Option.none
  | _ => Option.none

/-- Rule 3 of `_infer_price_bucket`:
`numeric_price = row.get("average_price") or row.get("avg_price")`, then
`float` under `try`/`except pass`.  Note that float NaN takes the final
`return "high"` because both threshold comparisons are false on NaN. -/
def numericPriceRule (avg avgp : Val) : Option String :=
  match Val.orPy avg avgp with
  | Val.none => Option.none
  | np =>
    match pyFloat np with
    | .error _ => Option.none
    | .ok Option.none => some "high"
    | .ok (some v) =>
      if v < 30000 then some "low"
      else if v < 60000 then some "medium"
      else some "high"

/-- `tags.get("price") or tags.get("price:class") or tags.get("cost")`. -/
def tagPriceOf (entries : List (String × Val)) : Val :=
  Val.orPy (Val.dictGet entries "price")
    (Val.orPy (Val.dictGet entries "price:class") (Val.dictGet entries "cost"))

/-- Rule 4 of `_infer_price_bucket` together with the final
`return "unknown"`: parse the tags cell, and when the parse result is
truthy read the first truthy entry under `price`, `price:class`, `cost`
and map it like rule 2.  A truthy parse result that is not a dict has no
`.get`, which raises `AttributeError`. -/
def tagsRule (t : Val) : Except PyErr String :=
  let tags := safe_parse_tags t
  if tags.truthy then
    match tags with
    | Val.dict entries =>
      let tag_price := tagPriceOf entries
      if tag_price.truthy then
        match tag_price with
        | Val.str s =>
          let tp := strStrip s
          if tp == "$" then .ok "low"
          else if tp == "$$" then .ok "medium"
          else if tp == "$$$" then .ok "high"
          else if tp == "$$$$" then .ok "high"
          else
            let lowered := strLower tp
            if lowered == "low" || lowered == "medium" || lowered == "high" then .ok lowered
            else .ok "unknown"
        | _ => .ok "unknown"
      else .ok "unknown"
    | _ => .error .attributeErrorGet
  else .ok "unknown"

/-- `_infer_price_bucket(row)` from the source: the four early-return
blocks in source order. -/
def infer_price_bucket (row : Row) : Except PyErr String :=
  match priceRangeRule row.price_range with
  | some b => .ok b
  | Option.none =>
  match priceSymbolRule row.price with
  | some b => .ok b
  | Option.none =>
  match numericPriceRule row.average_price row.avg_price with
  | some b => .ok b
  | Option.none => tagsRule row.tags

/-- `df.apply(f, axis := 1)` when `f` can raise: apply `f` to the rows in
order, stopping at the first exception.  On an empty frame the source
(modern pandas reduction inference) produces an empty column without
calling `f` on any actual row, so the result is `ok []`. -/
def mapExcept (f : α → Except PyErr β) : List α → Except PyErr (List β)
  | [] => .ok []
  | a :: as =>
    match f a with
    | .error e => .error e
    | .ok b =>
      match mapExcept f as with
      | .error e => .error e
      | .ok bs => .ok (b :: bs)

/-- The candidate table handed to `rank_restaurants`.  pandas columns
exist frame-wide, so presence of the columns the source tests with
`in df.columns` (or indexes directly) is a frame-level flag; for the
columns read only through `row.get`, an absent column is `Val.none` in
every row. -/
structure DFrame where
  hasLat : Bool
  hasLon : Bool
  hasCuisine : Bool
  hasRating : Bool
  hasDistance : Bool
  rows : List Row

/-- The preference record.  A field holds `none` when the key is absent;
a key present with Python `None` or the empty string follows the same
falsy path in the source, so it is represented the same way. -/
structure Prefs where
  cuisine : Option String
  price_range : Option String
  price : Option String

/-- The empty preference dict. -/
def Prefs.empty : Prefs := ⟨Option.none, Option.none, Option.none⟩

/-- The weights dict; a `none` field models an absent key, read through
`weights.get(key, 0.0)`. -/
structure Weights where
  distance : Option ℚ
  cuisine : Option ℚ
  price : Option ℚ
  rating : Option ℚ

/-- The default weight vector of the source. -/
def defaultWeights : Weights :=
  ⟨some (1 / 2), some (1 / 4), some (15 / 100), some (1 / 10)⟩

/-- One output row: the input row augmented with the derived columns. -/
structure ScoredRow where
  row : Row
  distance_m : Option ℚ
  score_distance : ℚ
  score_cuisine : ℚ
  price_bucket : String
  score_price : ℚ
  rating_norm : ℚ
  score : ℚ

/-- The `distance_m` column after the two source steps: recomputed with
the haversine when user coordinates are given (a NaN coordinate
propagates to a NaN distance, a non-coercible one raises), else taken
from a pre-existing column through `pd.to_numeric(..., errors := coerce)`,
else all NaN.  The haversine itself is the `hav` parameter: the real
function (`haversine_meters` below) is transcendental, so the rational
engine is stated for an arbitrary distance oracle. -/
def computeDistances (hav : ℚ → ℚ → ℚ → ℚ → ℚ) (df : DFrame)
    (uc : Option (ℚ × ℚ)) : Except PyErr (List (Option ℚ)) :=
  match uc with
  | some p =>
    mapExcept (fun r =>
      match pyFloat r.lat, pyFloat r.lon with
      | .ok (some a), .ok (some b) => .ok (some (hav p.1 p.2 a b))
      | .error e, _ => .error e
      | _, .error e => .error e
      | _, _ => .ok Option.none) df.rows
  | Option.none =>
    .ok (if df.hasDistance then df.rows.map (fun r => toNumeric r.distance_m)
         else df.rows.map (fun _ => Option.none))

/-- `max_dist`: the maximum valid distance, or 5000 when there is none
or it is non-positive. -/
def maxDistRef (dists : List (Option ℚ)) : ℚ :=
  match (dists.filterMap id).max? with
  | some m => if m ≤ 0 then 5000 else m
  | Option.none => 5000

/-- `score_distance`: linear decay for a known distance, 0 for NaN. -/
def scoreDistance (refDist : ℚ) : Option ℚ → ℚ
  | some d => max 0 (1 - d / refDist)
  | Option.none => 0

/-- One pattern position of `re.search` with `re.IGNORECASE`: a dot
matches any character, other characters match case-insensitively.
Restriction of the model: patterns made of literal characters and the
dot wildcard only (no other regex metacharacters). -/
def charMatch (p c : Char) : Bool := p == '.' || p.toLower == c.toLower

/-- Match the whole pattern at the head of the text. -/
def matchHere : List Char → List Char → Bool
  | [], _ => true
  | _ :: _, [] => false
  | p :: ps, c :: cs => charMatch p c && matchHere ps cs

/-- `Series.str.contains(pat, case := False)` on one cell: pandas uses
`re.search`, i.e. the pattern may match at any position. -/
def reSearch (pat s : String) : Bool :=
  s.toList.tails.any (fun t => matchHere pat.toList t)

/-- `_score_price(bucket)` from the source, with the preference already
normalized. -/
def score_price_of (pref_price bucket : String) : ℚ :=
  if bucket == pref_price then 1
  else if bucket == "unknown" || bucket == "" then 1 / 5
  else if (bucket == "low" && pref_price == "medium") ||
      (bucket == "medium" && pref_price == "low") ||
      (bucket == "medium" && pref_price == "high") ||
      (bucket == "high" && pref_price == "medium") then 1 / 2
  else 0

/-- The Spanish synonym table applied to the normalized preference. -/
def priceSynonyms (p : String) : String :=
  if p == "medio" || p == "media" || p == "moderado" || p == "moderada" then "medium"
  else if p == "alto" || p == "alta" then "high"
  else if p == "bajo" || p == "baja" then "low"
  else p

/-- One output row assembled from the per-row inputs and the
call-global data (weights, normalized preferences, reference
distance).  This is the row-wise reading of the column-wise source
assignments. -/
def mkScoredRow (w : Weights) (pref_cuisine : String) (pp : Option String)
    (hasRating : Bool) (refDist : ℚ) (r : Row) (d : Option ℚ) (b : String) :
    ScoredRow :=
  let sd := scoreDistance refDist d
  let sc : ℚ :=
    if pref_cuisine != "" then
      (if reSearch pref_cuisine (r.cuisine.getD "") then 1 else 0)
    else 0
  let sp : ℚ :=
    match pp with
    | some p => score_price_of p b
    | Option.none => 0
  let rn : ℚ := if hasRating then ((toNumeric r.rating).getD 0) / 5 else 0
  { row := r, distance_m := d, score_distance := sd, score_cuisine := sc,
    price_bucket := b, score_price := sp, rating_norm := rn,
    score := w.distance.getD 0 * sd + w.cuisine.getD 0 * sc +
      w.price.getD 0 * sp + w.rating.getD 0 * rn }

/-- Zip the rows with their distance and price-bucket columns. -/
def buildScored (w : Weights) (pref_cuisine : String) (pp : Option String)
    (hasRating : Bool) (refDist : ℚ) :
    List Row → List (Option ℚ) → List String → List ScoredRow
  | r :: rs, d :: ds, b :: bs =>
    mkScoredRow w pref_cuisine pp hasRating refDist r d b ::
      buildScored w pref_cuisine pp hasRating refDist rs ds bs
  | _, _, _ => []

/-- Ascending comparison on the `distance_m` sort key; pandas puts NaN
last (`na_position` default). -/
def distLe : Option ℚ → Option ℚ → Bool
  | Option.none, Option.none => true
  | Option.none, some _ => false
  | some _, Option.none => true
  | some a, some b => decide (a ≤ b)

/-- The two-key sort order of
`sort_values(by := [score, distance_m], ascending := [False, True])`:
score descending, then distance ascending with NaN last. -/
def rankLe (a b : ScoredRow) : Bool :=
  if a.score = b.score then distLe a.distance_m b.distance_m
  else decide (b.score < a.score)

/-- `(prefs or \x7b\x7d).get("cuisine") or ""`. -/
def prefCuisineOf (prefs : Option Prefs) : String :=
  ((prefs.getD Prefs.empty).cuisine).getD ""

/-- `prefs.get("price_range", "any")` followed by the any/empty guard and
the synonym normalization; `none` is the no-preference branch. -/
def prefPriceNormOf (prefs : Option Prefs) : Option String :=
  let pref_price0 := ((prefs.getD Prefs.empty).price_range).getD "any"
  if pref_price0 != "" && strLower pref_price0 != "any" then
    some (priceSynonyms (strStrip (strLower pref_price0)))
  else Option.none

/-- `rank_restaurants` up to (excluding) the final sort, translated
statement by statement from the source: default weights, the lat/lon
column check, the distance column and its normalization reference, the
cuisine score (a `KeyError` when the preference is non-empty but the
frame has no cuisine column), the price bucket column, the price score
with its any/empty guard and synonym normalization, the rating score,
and the weighted total. -/
def scored_rows (hav : ℚ → ℚ → ℚ → ℚ → ℚ) (df : DFrame) (prefs : Option Prefs)
    (uc : Option (ℚ × ℚ)) (weights : Option Weights) :
    Except PyErr (List ScoredRow) :=
  let w := weights.getD defaultWeights
  if df.hasLat && df.hasLon then
    match computeDistances hav df uc with
    | .error e => .error e
    | .ok dists =>
      match (if prefCuisineOf prefs != "" && !df.hasCuisine then
        Except.error PyErr.keyErrorCuisine else Except.ok Unit.unit) with
      | .error e => .error e
      | .ok _ =>
        match mapExcept infer_price_bucket df.rows with
        | .error e => .error e
        | .ok buckets =>
          .ok (buildScored w (prefCuisineOf prefs) (prefPriceNormOf prefs)
            df.hasRating (maxDistRef dists) df.rows dists buckets)
  else .error .valueErrorNoLatLon

/-- `rank_restaurants(df, prefs, user_coords, weights)`: the scored rows
sorted by the stable two-key sort (pandas multi-column `sort_values`
uses a stable lexsort). -/
def rank_restaurants (hav : ℚ → ℚ → ℚ → ℚ → ℚ) (df : DFrame)
    (prefs : Option Prefs) (uc : Option (ℚ × ℚ)) (weights : Option Weights) :
    Except PyErr (List ScoredRow) :=
  match scored_rows hav df prefs uc weights with
  | .error e => .error e
  | .ok scored => .ok (scored.mergeSort rankLe)

/-- `math.radians(d)`. -/
noncomputable def radians (d : ℝ) : ℝ := d * (Real.pi / 180)

/-- `haversine_meters(lat1, lon1, lat2, lon2)` from the source, over the
real numbers (the shallow model of Python floats for this pure
function): mean Earth radius 6371000 m and the haversine formula. -/
noncomputable def haversine_meters (lat1 lon1 lat2 lon2 : ℝ) : ℝ :=
  6371000 * (2 * Real.arcsin (Real.sqrt (
    Real.sin ((radians lat2 - radians lat1) / 2) ^ 2 +
    Real.cos (radians lat1) * Real.cos (radians lat2) *
      Real.sin ((radians lon2 - radians lon1) / 2) ^ 2)))

/-- Squared sine of a half-difference is symmetric in its endpoints. -/
theorem sin_half_sub_sq_symm (u v : ℝ) :
    Real.sin ((u - v) / 2) ^ 2 = Real.sin ((v - u) / 2) ^ 2 := by
  rw [show (u - v) / 2 = -((v - u) / 2) by ring, Real.sin_neg]
  ring

/-- Claim C9: `haversine_meters` is symmetric in its two points; this
holds for all real coordinates, in particular on the valid
latitude/longitude domain. -/
theorem haversine_meters_symm (lat1 lon1 lat2 lon2 : ℝ) :
    haversine_meters lat1 lon1 lat2 lon2 = haversine_meters lat2 lon2 lat1 lon1 := by
  unfold haversine_meters
  rw [sin_half_sub_sq_symm (radians lat2) (radians lat1),
    sin_half_sub_sq_symm (radians lon2) (radians lon1),
    mul_comm (Real.cos (radians lat1)) (Real.cos (radians lat2))]

/-- Spec rule 1 vocabulary: a recognized bucket spelling, with the
Spanish synonyms medio, alto, bajo mapped to their buckets. -/
def bucketSpelling (s : String) : Option String :=
  let n := strLower (strStrip s)
  if n == "medio" then some "medium"
  else if n == "alto" then some "high"
  else if n == "bajo" then some "low"
  else if n == "low" || n == "medium" || n == "high" then some n
  else Option.none

/-- Spec rule 2 vocabulary: the dollar symbols mapped to low, medium,
high, high, or a bucket word used as-is. -/
def symbolOrBucketWord (s : String) : Option String :=
  let c := strStrip s
  if c == "$" then some "low"
  else if c == "$$" then some "medium"
  else if c == "$$$" || c == "$$$$" then some "high"
  else
    let w := strLower c
    if w == "low" || w == "medium" || w == "high" then some w
    else Option.none

/-- Spec rule 3 vocabulary: the fixed thresholds 30000 and 60000. -/
def thresholdBucket (q : ℚ) : String :=
  if q < 30000 then "low" else if q < 60000 then "medium" else "high"

/-- Rule 1 as the spec states it, on a cell. -/
def specRule1 (v : Val) : Option String :=
  match v with
  | Val.str s => bucketSpelling s
  | _ => Option.none

/-- Rule 2 as the spec states it, on a cell. -/
def specRule2 (v : Val) : Option String :=
  match v with
  | Val.str s => symbolOrBucketWord s
  | _ => Option.none

/-- Rule 3 as claim C3 states it: a present numeric average price is
bucketed by the thresholds. -/
def claimNumericPrice (avg avgp : Val) : Option ℚ :=
  match avg with
  | Val.num q => some q
  | _ =>
    match avgp with
    | Val.num q => some q
    | _ => Option.none

/-- The tags mapping as the spec states it: an already-parsed mapping, or
a textual serialization evaluating to a mapping, else empty. -/
def claimTagsMapping (v : Val) : List (String × Val) :=
  match v with
  | Val.dict entries => entries
  | Val.str s =>
    match literal_eval s with
    | some (Val.dict entries) => entries
    | _ => []
  | _ => []

/-- The tags entry under price, price:class, or cost, in that order. -/
def claimTagEntry (entries : List (String × Val)) : Val :=
  match Val.dictGet entries "price" with
  | Val.none =>
    match Val.dictGet entries "price:class" with
    | Val.none => Val.dictGet entries "cost"
    | v => v
  | v => v

/-- The price bucket exactly as claim C3 states it: the five-rule ordered
fallback chain, first applicable rule winning. -/
def specPriceBucketClaim (row : Row) : String :=
  match specRule1 row.price_range with
  | some b => b
  | Option.none =>
  match specRule2 row.price with
  | some b => b
  | Option.none =>
  match claimNumericPrice row.average_price row.avg_price with
  | some q => thresholdBucket q
  | Option.none =>
  match (match claimTagEntry (claimTagsMapping row.tags) with
         | Val.str s => symbolOrBucketWord s
         | _ => Option.none) with
  | some b => b
  | Option.none => "unknown"

/-- Rule 3 as the code forces it to be amended: the alias chain is
truthiness-gated (a zero or empty `average_price` falls through to
`avg_price`, and a falsy combined value skips the rule entirely), float
coercion failures fall through, and NaN buckets as high. -/
def amendedNumericRule (avg avgp : Val) : Option String :=
  match Val.orPy avg avgp with
  | Val.none => Option.none
  | w =>
    match pyFloat w with
    | .ok (some q) => some (thresholdBucket q)
    | .ok Option.none => some "high"
    | .error _ => Option.none

/-- Rule 4 as the code forces it to be amended: a truthy parse result
that is not a mapping raises `AttributeError` instead of bucketing; a
truthy string entry is mapped as in rule 2, anything else gives
unknown. -/
def amendedTagsRule (t : Val) : Except PyErr String :=
  match safe_parse_tags t with
  | Val.dict entries =>
    match tagPriceOf entries with
    | Val.str s =>
      if s != "" then .ok ((symbolOrBucketWord s).getD "unknown") else .ok "unknown"
    | _ => .ok "unknown"
  | v => if v.truthy then .error .attributeErrorGet else .ok "unknown"

/-- The amended claim C3 chain: rules 1 and 2 as the spec states them,
rules 3 and 4 amended as the code forces. -/
def amendedPriceBucket (row : Row) : Except PyErr String :=
  match specRule1 row.price_range <|> specRule2 row.price <|>
      amendedNumericRule row.average_price row.avg_price with
  | some b => .ok b
  | Option.none => amendedTagsRule row.tags

theorem priceRangeRule_eq_spec (v : Val) : priceRangeRule v = specRule1 v := by
  cases v
  case str s =>
    simp only [priceRangeRule, specRule1, bucketSpelling]
    by_cases h0 : strStrip s = ""
    · rw [h0]; decide
    · rw [if_pos (by simpa using h0)]
      by_cases h1 : strLower (strStrip s) = "medio"
      · simp [h1]
      · by_cases h2 : strLower (strStrip s) = "alto"
        · simp [h1, h2]
        · by_cases h3 : strLower (strStrip s) = "bajo"
          · simp [h1, h2, h3]
          · by_cases h4 : strLower (strStrip s) = "low"
            · simp [h1, h2, h3, h4]
            · by_cases h5 : strLower (strStrip s) = "medium"
              · simp [h1, h2, h3, h4, h5]
              · by_cases h6 : strLower (strStrip s) = "high"
                · simp [h1, h2, h3, h4, h5, h6]
                · simp [h1, h2, h3, h4, h5, h6]
  all_goals rfl

theorem priceSymbolRule_eq_spec (v : Val) : priceSymbolRule v = specRule2 v := by
  cases v
  case str s =>
    simp only [priceSymbolRule, specRule2, symbolOrBucketWord]
    by_cases h0 : strStrip s = ""
    · rw [h0]; decide
    · rw [if_pos (by simpa using h0)]
      by_cases h1 : strStrip s = "$"
      · simp [h1]
      · by_cases h2 : strStrip s = "$$"
        · simp [h1, h2]
        · by_cases h3 : strStrip s = "$$$"
          · simp [h1, h2, h3]
          · by_cases h4 : strStrip s = "$$$$"
            · simp [h1, h2, h3, h4]
            · simp [h1, h2, h3, h4]
  all_goals rfl

theorem numericPriceRule_eq_amended (avg avgp : Val) :
    numericPriceRule avg avgp = amendedNumericRule avg avgp := by
  have aux : ∀ w : Val,
      (match pyFloat w with
       | .error _ => (Option.none : Option String)
       | .ok Option.none => some "high"
       | .ok (some v) =>
         if v < 30000 then some "low" else if v < 60000 then some "medium" else some "high") =
      (match pyFloat w with
       | .ok (some q) => some (thresholdBucket q)
       | .ok Option.none => some "high"
       | .error _ => Option.none) := by
    intro w
    cases hp : pyFloat w with
    | error e => rfl
    | ok o =>
      cases o with
      | none => rfl
      | some v => simp only [thresholdBucket]; split_ifs <;> rfl
  unfold numericPriceRule amendedNumericRule
  cases Val.orPy avg avgp
  case none => rfl
  case nan => exact aux Val.nan
  case num q => exact aux (Val.num q)
  case str s => exact aux (Val.str s)
  case list l => exact aux (Val.list l)
  case dict d => exact aux (Val.dict d)

theorem tagMapAux (tp : Val) :
    (if tp.truthy then
       match tp with
       | Val.str s =>
         if strStrip s == "$" then Except.ok (ε := PyErr) "low"
         else if strStrip s == "$$" then .ok "medium"
         else if strStrip s == "$$$" then .ok "high"
         else if strStrip s == "$$$$" then .ok "high"
         else if strLower (strStrip s) == "low" || strLower (strStrip s) == "medium" ||
             strLower (strStrip s) == "high" then .ok (strLower (strStrip s))
         else .ok "unknown"
       | _ => .ok "unknown"
     else .ok "unknown") =
    (match tp with
     | Val.str s =>
       if s != "" then .ok ((symbolOrBucketWord s).getD "unknown") else .ok "unknown"
     | _ => .ok "unknown") := by
  cases tp with
  | str s =>
    simp only [Val.truthy]
    by_cases hne : s = ""
    · rw [hne]; rfl
    · rw [if_pos (show (s != "") = true from by simpa using hne),
        if_pos (show (s != "") = true from by simpa using hne)]
      simp only [symbolOrBucketWord]
      by_cases h1 : strStrip s = "$"
      · simp [h1]
      · by_cases h2 : strStrip s = "$$"
        · simp [h1, h2]
        · by_cases h3 : strStrip s = "$$$"
          · simp [h1, h2, h3]
          · by_cases h4 : strStrip s = "$$$$"
            · simp [h1, h2, h3, h4]
            · by_cases h5 : strLower (strStrip s) = "low" ∨
                  strLower (strStrip s) = "medium" ∨ strLower (strStrip s) = "high"
              · rcases h5 with h5 | h5 | h5 <;> simp [h1, h2, h3, h4, h5]
              · push_neg at h5
                simp [h1, h2, h3, h4, h5.1, h5.2.1, h5.2.2]
  | none => rfl
  | nan => rfl
  | num q => split_ifs <;> rfl
  | list items => split_ifs <;> rfl
  | dict d => split_ifs <;> rfl

theorem tagsRule_eq_amended (t : Val) : tagsRule t = amendedTagsRule t := by
  unfold tagsRule amendedTagsRule
  cases safe_parse_tags t with
  | dict entries =>
    cases entries with
    | nil => rfl
    | cons e es => exact tagMapAux (tagPriceOf (e :: es))
  | none => rfl
  | nan => rfl
  | num q => rfl
  | str s => rfl
  | list items => rfl

/-- The amended claim C3 chain agrees with the source function on every
row. -/
theorem infer_eq_amended_aux (row : Row) :
    infer_price_bucket row = amendedPriceBucket row := by
  unfold infer_price_bucket amendedPriceBucket
  rw [priceRangeRule_eq_spec, priceSymbolRule_eq_spec, numericPriceRule_eq_amended,
    tagsRule_eq_amended]
  cases specRule1 row.price_range with
  | some b => rfl
  | none =>
    cases specRule2 row.price with
    | some b => rfl
    | none =>
      cases amendedNumericRule row.average_price row.avg_price with
      | some b => rfl
      | none => rfl

/-- A distance oracle for concrete instances (never applied on them). -/
def hav0 : ℚ → ℚ → ℚ → ℚ → ℚ := fun _ _ _ _ => 0

/-- A candidate row with coordinates and everything else missing. -/
def blankRow : Row :=
  { lat := Val.num 1, lon := Val.num 2, cuisine := Option.none,
    price_range := Val.none, price := Val.none, average_price := Val.none,
    avg_price := Val.none, tags := Val.none, rating := Val.none,
    distance_m := Val.none }

/-- A row whose only price information is `average_price = 0`. -/
def avgZeroRow : Row :=
  { blankRow with average_price := Val.num 0 }

/-- Claim C3, as stated, is false on the code: a row with
`average_price = 0` (and no other price data) has a present numeric
average price, so the claimed chain buckets it low, but the source
skips rule 3 because `0 or row.get("avg_price")` is falsy, and returns
unknown. -/
theorem infer_price_bucket_claim_chain_false :
    ¬ (∀ row : Row, infer_price_bucket row = Except.ok (specPriceBucketClaim row)) := by
  intro h
  have h2 := h avgZeroRow
  rw [show infer_price_bucket avgZeroRow = Except.ok "unknown" from rfl,
    show specPriceBucketClaim avgZeroRow = "low" from rfl] at h2
  exact absurd h2 (by simp)

/-- Claim C3 (amended): for every candidate row the price bucket follows
the ordered fallback chain with rules 1 and 2 as stated, rule 3 amended
to apply only to a truthy (non-zero, non-empty) average price value —
with the alias chain `average_price or avg_price` evaluated by Python
truthiness and float NaN bucketing as high — and rule 4 amended to
raise `AttributeError` when the tags text evaluates to a truthy
non-mapping; else unknown. -/
theorem infer_price_bucket_follows_amended_chain (row : Row) :
    infer_price_bucket row = amendedPriceBucket row :=
  infer_eq_amended_aux row

theorem mapExcept_ok_length {α β : Type} {f : α → Except PyErr β} :
    ∀ {l : List α} {bs : List β}, mapExcept f l = .ok bs → bs.length = l.length := by
  intro l
  induction l with
  | nil => intro bs h; simp only [mapExcept] at h; cases h; rfl
  | cons a as ih =>
    intro bs h
    simp only [mapExcept] at h
    cases hfa : f a with
    | error e => rw [hfa] at h; cases h
    | ok b =>
      rw [hfa] at h
      cases hrest : mapExcept f as with
      | error e => rw [hrest] at h; cases h
      | ok bs2 =>
        rw [hrest] at h
        cases h
        simp [ih hrest]

theorem mapExcept_ok_mem {α β : Type} {f : α → Except PyErr β} :
    ∀ {l : List α} {bs : List β}, mapExcept f l = .ok bs →
      ∀ b ∈ bs, ∃ a ∈ l, f a = .ok b := by
  intro l
  induction l with
  | nil => intro bs h; simp only [mapExcept] at h; cases h; intro b hb; cases hb
  | cons a as ih =>
    intro bs h
    simp only [mapExcept] at h
    cases hfa : f a with
    | error e => rw [hfa] at h; cases h
    | ok b0 =>
      rw [hfa] at h
      cases hrest : mapExcept f as with
      | error e => rw [hrest] at h; cases h
      | ok bs2 =>
        rw [hrest] at h
        cases h
        intro b hb
        rcases List.mem_cons.mp hb with hb | hb
        · exact ⟨a, List.mem_cons_self a as, hb ▸ hfa⟩
        · rcases ih hrest b hb with ⟨a2, ha2, hfa2⟩
          exact ⟨a2, List.mem_cons_of_mem a ha2, hfa2⟩

theorem buildScored_length (w : Weights) (pc : String) (pp : Option String)
    (hr : Bool) (ref : ℚ) :
    ∀ (rows : List Row) (ds : List (Option ℚ)) (bs : List String),
      rows.length = ds.length → rows.length = bs.length →
      (buildScored w pc pp hr ref rows ds bs).length = rows.length := by
  intro rows
  induction rows with
  | nil => intro ds bs _ _; rfl
  | cons r rs ih =>
    intro ds bs hd hb
    cases ds with
    | nil => cases hd
    | cons d ds2 =>
      cases bs with
      | nil => cases hb
      | cons b bs2 =>
        simp only [buildScored, List.length_cons]
        rw [ih ds2 bs2 (by simpa using hd) (by simpa using hb)]

theorem buildScored_mem (w : Weights) (pc : String) (pp : Option String)
    (hr : Bool) (ref : ℚ) :
    ∀ (rows : List Row) (ds : List (Option ℚ)) (bs : List String)
      (r : ScoredRow), r ∈ buildScored w pc pp hr ref rows ds bs →
      ∃ row d b, b ∈ bs ∧ r = mkScoredRow w pc pp hr ref row d b := by
  intro rows
  induction rows with
  | nil => intro ds bs r hmem; cases hmem
  | cons r0 rs ih =>
    intro ds bs r hmem
    cases ds with
    | nil => cases hmem
    | cons d ds2 =>
      cases bs with
      | nil => cases hmem
      | cons b bs2 =>
        rcases List.mem_cons.mp hmem with h | h
        · exact ⟨r0, d, b, List.mem_cons_self b bs2, h⟩
        · rcases ih ds2 bs2 r h with ⟨row, d2, b2, hb2, hr2⟩
          exact ⟨row, d2, b2, List.mem_cons_of_mem b hb2, hr2⟩

theorem computeDistances_ok_length {hav : ℚ → ℚ → ℚ → ℚ → ℚ} {df : DFrame}
    {uc : Option (ℚ × ℚ)} {dists : List (Option ℚ)}
    (h : computeDistances hav df uc = .ok dists) : dists.length = df.rows.length := by
  unfold computeDistances at h
  cases uc with
  | some p => exact mapExcept_ok_length h
  | none =>
    cases h
    split <;> simp

/-- Inversion of a successful `scored_rows` call. -/
theorem scored_rows_ok_inv {hav : ℚ → ℚ → ℚ → ℚ → ℚ} {df : DFrame}
    {prefs : Option Prefs} {uc : Option (ℚ × ℚ)} {weights : Option Weights}
    {pre : List ScoredRow} (h : scored_rows hav df prefs uc weights = .ok pre) :
    df.hasLat = true ∧ df.hasLon = true ∧
    ∃ dists buckets,
      computeDistances hav df uc = .ok dists ∧
      mapExcept infer_price_bucket df.rows = .ok buckets ∧
      pre = buildScored (weights.getD defaultWeights) (prefCuisineOf prefs)
        (prefPriceNormOf prefs) df.hasRating (maxDistRef dists) df.rows dists buckets := by
  unfold scored_rows at h
  by_cases hl : (df.hasLat && df.hasLon) = true
  · rw [if_pos hl] at h
    cases hd : computeDistances hav df uc with
    | error e => rw [hd] at h; cases h
    | ok dists =>
      rw [hd] at h
      by_cases hc : (prefCuisineOf prefs != "" && !df.hasCuisine) = true
      · rw [if_pos hc] at h; cases h
      · rw [if_neg hc] at h
        cases hb : mapExcept infer_price_bucket df.rows with
        | error e => rw [hb] at h; cases h
        | ok buckets =>
          rw [hb] at h
          cases h
          rcases Bool.and_eq_true_iff.mp hl with ⟨h1, h2⟩
          exact ⟨h1, h2, dists, buckets, rfl, rfl, rfl⟩
  · rw [if_neg hl] at h; cases h

/-- Inversion of a successful `rank_restaurants` call. -/
theorem rank_ok_inv {hav : ℚ → ℚ → ℚ → ℚ → ℚ} {df : DFrame} {prefs : Option Prefs}
    {uc : Option (ℚ × ℚ)} {weights : Option Weights} {out : List ScoredRow}
    (h : rank_restaurants hav df prefs uc weights = .ok out) :
    ∃ pre, scored_rows hav df prefs uc weights = .ok pre ∧
      out = pre.mergeSort rankLe := by
  unfold rank_restaurants at h
  cases hs : scored_rows hav df prefs uc weights with
  | error e => rw [hs] at h; cases h
  | ok pre =>
    rw [hs] at h
    cases h
    exact ⟨pre, rfl, rfl⟩

/-- The combined per-output-row characterization of a successful call. -/
theorem rank_out_char {hav : ℚ → ℚ → ℚ → ℚ → ℚ} {df : DFrame} {prefs : Option Prefs}
    {uc : Option (ℚ × ℚ)} {weights : Option Weights} {out : List ScoredRow}
    (h : rank_restaurants hav df prefs uc weights = .ok out) :
    ∃ dists buckets,
      computeDistances hav df uc = .ok dists ∧
      mapExcept infer_price_bucket df.rows = .ok buckets ∧
      out.length = df.rows.length ∧
      ∀ r ∈ out, ∃ row d b, b ∈ buckets ∧
        r = mkScoredRow (weights.getD defaultWeights) (prefCuisineOf prefs)
          (prefPriceNormOf prefs) df.hasRating (maxDistRef dists) row d b := by
  rcases rank_ok_inv h with ⟨pre, hpre, hout⟩
  rcases scored_rows_ok_inv hpre with ⟨-, -, dists, buckets, hd, hb, hbuild⟩
  refine ⟨dists, buckets, hd, hb, ?_, ?_⟩
  · rw [hout, List.length_mergeSort, hbuild]
    exact buildScored_length _ _ _ _ _ _ _ _
      ((computeDistances_ok_length hd).symm) ((mapExcept_ok_length hb).symm)
  · intro r hr
    rw [hout] at hr
    have hr2 : r ∈ pre := List.mem_mergeSort.mp hr
    rw [hbuild] at hr2
    exact buildScored_mem _ _ _ _ _ _ _ _ _ hr2

/-- Claim C8: a candidate batch lacking the lat column or the lon column
makes `rank_restaurants` report the structural `ValueError` for the whole
call, regardless of preferences, coordinates, or weights. -/
theorem rank_restaurants_requires_latlon (hav : ℚ → ℚ → ℚ → ℚ → ℚ) (df : DFrame)
    (prefs : Option Prefs) (uc : Option (ℚ × ℚ)) (weights : Option Weights)
    (h : df.hasLat = false ∨ df.hasLon = false) :
    rank_restaurants hav df prefs uc weights = .error .valueErrorNoLatLon := by
  unfold rank_restaurants scored_rows
  rcases h with h | h <;> simp [h]

/-- A frame with no lat column, used as the witness input for C8. -/
def noLatFrame : DFrame := ⟨false, true, false, false, false, [blankRow]⟩

theorem rank_restaurants_requires_latlon_witness :
    (noLatFrame.hasLat = false ∨ noLatFrame.hasLon = false) ∧
    rank_restaurants hav0 noLatFrame Option.none Option.none Option.none =
      .error .valueErrorNoLatLon :=
  ⟨Or.inl rfl,
    rank_restaurants_requires_latlon hav0 noLatFrame Option.none Option.none Option.none
      (Or.inl rfl)⟩

/-- An empty candidate frame that does expose the lat and lon columns. -/
def emptyLatLonFrame : DFrame := ⟨true, true, false, false, false, []⟩

/-- Claim C1 fails on the code: on an empty frame that exposes lat and
lon, with seeker coordinates supplied, `rank_restaurants` returns an
empty successful result instead of reporting a structural error (there
is no emptiness check in the source; the per-row work is vacuous on an
empty frame). -/
theorem rank_restaurants_empty_frame_ok :
    rank_restaurants hav0 emptyLatLonFrame Option.none Option.none Option.none = .ok [] ∧
    rank_restaurants hav0 emptyLatLonFrame Option.none
      (some (621 / 100, -7557 / 100)) Option.none = .ok [] := by
  constructor
  · show Except.ok (List.mergeSort [] rankLe) = Except.ok []
    rw [List.mergeSort_nil]
  · show Except.ok (List.mergeSort [] rankLe) = Except.ok []
    rw [List.mergeSort_nil]

/-- A row whose tags text is a valid Python literal that is not a dict. -/
def badTagsRow : Row := { blankRow with tags := Val.str "[1, 2]" }

/-- A one-row frame whose only anomaly is the non-dict tags text. -/
def dfBadTags : DFrame := ⟨true, true, false, false, false, [badTagsRow]⟩

/-- Claim C2 fails on the code: a tags cell whose textual serialization
evaluates to a truthy non-mapping (here the list `[1, 2]`) is returned
as-is by `_safe_parse_tags`, and `_infer_price_bucket` then calls
`.get` on it, raising `AttributeError` for the whole call instead of
absorbing the anomaly with an empty mapping. -/
theorem rank_restaurants_nondict_tags_raises :
    rank_restaurants hav0 dfBadTags Option.none Option.none Option.none =
      .error .attributeErrorGet := rfl

/-- Case-insensitive literal substring occurrence: the matching relation
claim C4 asserts for the cuisine score. -/
def containsCI (frag s : String) : Bool :=
  (strLower s).toList.tails.any (fun t => (strLower frag).toList.isPrefixOf t)

/-- A one-row frame with cuisine column, used against claim C4. -/
def pizzaRow : Row := { blankRow with cuisine := some "pizzas" }

def dfPizza : DFrame := ⟨true, true, true, false, false, [pizzaRow]⟩

def prefsPizza : Prefs := ⟨some "pizza.", Option.none, Option.none⟩

/-- The single output row of the C4 counterexample call. -/
def sPizza : ScoredRow :=
  mkScoredRow defaultWeights "pizza." Option.none false 5000 pizzaRow Option.none "unknown"

theorem rank_pizza_eval :
    rank_restaurants hav0 dfPizza (some prefsPizza) Option.none Option.none =
      .ok [sPizza] := by
  show Except.ok ([sPizza].mergeSort rankLe) = Except.ok [sPizza]
  rw [List.mergeSort_singleton]

/-- Claim C4 as stated is false on the code: the cuisine preference is a
regular-expression pattern for `Series.str.contains`, not a literal
substring.  The fragment `pizza.` (dot wildcard) scores 1.0 against the
cuisine `pizzas` although it is not a substring of it. -/
theorem rank_score_cuisine_not_substring :
    ¬ (∀ (hav : ℚ → ℚ → ℚ → ℚ → ℚ) (df : DFrame) (prefs : Option Prefs)
        (uc : Option (ℚ × ℚ)) (weights : Option Weights) (out : List ScoredRow),
        rank_restaurants hav df prefs uc weights = .ok out →
        ∀ r ∈ out, r.score_cuisine =
          if prefCuisineOf prefs != "" &&
              containsCI (prefCuisineOf prefs) (r.row.cuisine.getD "") then 1 else 0) := by
  intro h
  have h2 := h hav0 dfPizza (some prefsPizza) Option.none Option.none [sPizza]
    rank_pizza_eval sPizza (List.mem_singleton.mpr rfl)
  rw [show sPizza.score_cuisine = 1 from rfl] at h2
  rw [show (if prefCuisineOf (some prefsPizza) != "" &&
      containsCI (prefCuisineOf (some prefsPizza)) (sPizza.row.cuisine.getD "") then (1 : ℚ)
      else 0) = 0 from rfl] at h2
  exact absurd h2 (by norm_num)

/-- Regex metacharacters other than the dot wildcard. -/
def isRegexMeta (c : Char) : Bool :=
  c == '^' || c == '$' || c == '*' || c == '+' || c == '?' ||
  c == '\x7b' || c == '\x7d' || c == '[' || c == ']' || c == '(' || c == ')' ||
  c == '|' || c == '\\'

/-- Patterns inside the fragment of regex this model covers: literal
characters and the dot wildcard. -/
def regexLiteralDot (s : String) : Bool := s.toList.all (fun c => !isRegexMeta c)

/-- Claim C4 (amended): for fragments within the modelled regex fragment
(no metacharacters beyond the dot wildcard), `score_cuisine` is 1.0
exactly when the fragment matches the candidate cuisine (missing value
read as the empty string) as a case-insensitive regular-expression
search, and 0.0 otherwise; an empty fragment gives 0.0 for every
candidate. -/
theorem rank_score_cuisine_regex (hav : ℚ → ℚ → ℚ → ℚ → ℚ) (df : DFrame)
    (prefs : Option Prefs) (uc : Option (ℚ × ℚ)) (weights : Option Weights)
    (out : List ScoredRow)
    (_hre : regexLiteralDot (prefCuisineOf prefs) = true)
    (ho : rank_restaurants hav df prefs uc weights = .ok out) :
    ∀ r ∈ out, r.score_cuisine =
      if prefCuisineOf prefs != "" &&
          reSearch (prefCuisineOf prefs) (r.row.cuisine.getD "") then 1 else 0 := by
  rcases rank_out_char ho with ⟨dists, buckets, -, -, -, hmem⟩
  intro r hr
  rcases hmem r hr with ⟨row, d, b, -, hrw⟩
  subst hrw
  show (if prefCuisineOf prefs != "" then
      (if reSearch (prefCuisineOf prefs) (row.cuisine.getD "") then (1 : ℚ) else 0)
    else 0) =
    (if prefCuisineOf prefs != "" &&
        reSearch (prefCuisineOf prefs) (row.cuisine.getD "") then 1 else 0)
  cases hpc : prefCuisineOf prefs != "" <;>
    cases hre2 : reSearch (prefCuisineOf prefs) (row.cuisine.getD "") <;>
    simp [hpc, hre2]

theorem rank_score_cuisine_regex_witness :
    regexLiteralDot (prefCuisineOf (some prefsPizza)) = true ∧
    sPizza.score_cuisine =
      if prefCuisineOf (some prefsPizza) != "" &&
          reSearch (prefCuisineOf (some prefsPizza)) (sPizza.row.cuisine.getD "") then 1
      else 0 :=
  ⟨by decide,
    rank_score_cuisine_regex hav0 dfPizza (some prefsPizza) Option.none Option.none
      [sPizza] (by decide) rank_pizza_eval sPizza (List.mem_singleton.mpr rfl)⟩

theorem bucketSpelling_mem {s b : String} (h : bucketSpelling s = some b) :
    b = "low" ∨ b = "medium" ∨ b = "high" := by
  simp only [bucketSpelling] at h
  split_ifs at h with h1 h2 h3 h4
  · cases h; exact Or.inr (Or.inl rfl)
  · cases h; exact Or.inr (Or.inr rfl)
  · cases h; exact Or.inl rfl
  · cases h
    rcases (show (strLower (strStrip s) = "low" ∨ strLower (strStrip s) = "medium") ∨
        strLower (strStrip s) = "high" by simpa using h4) with (h5 | h5) | h5
    · exact Or.inl h5
    · exact Or.inr (Or.inl h5)
    · exact Or.inr (Or.inr h5)

theorem symbolOrBucketWord_mem {s b : String} (h : symbolOrBucketWord s = some b) :
    b = "low" ∨ b = "medium" ∨ b = "high" := by
  simp only [symbolOrBucketWord] at h
  split_ifs at h with h1 h2 h3 h4
  · cases h; exact Or.inl rfl
  · cases h; exact Or.inr (Or.inl rfl)
  · cases h; exact Or.inr (Or.inr rfl)
  · cases h
    rcases (show (strLower (strStrip s) = "low" ∨ strLower (strStrip s) = "medium") ∨
        strLower (strStrip s) = "high" by simpa using h4) with (h5 | h5) | h5
    · exact Or.inl h5
    · exact Or.inr (Or.inl h5)
    · exact Or.inr (Or.inr h5)

theorem thresholdBucket_mem (q : ℚ) :
    thresholdBucket q = "low" ∨ thresholdBucket q = "medium" ∨ thresholdBucket q = "high" := by
  unfold thresholdBucket
  split_ifs <;> simp

theorem amendedNumericRule_mem {avg avgp : Val} {b : String}
    (h : amendedNumericRule avg avgp = some b) :
    b = "low" ∨ b = "medium" ∨ b = "high" := by
  have aux : ∀ w : Val,
      (match pyFloat w with
       | Except.ok (some q) => some (thresholdBucket q)
       | Except.ok Option.none => some "high"
       | Except.error _ => (Option.none : Option String)) = some b →
      b = "low" ∨ b = "medium" ∨ b = "high" := by
    intro w hw
    cases hp : pyFloat w with
    | error e => rw [hp] at hw; cases hw
    | ok o =>
      rw [hp] at hw
      cases o with
      | none => cases hw; exact Or.inr (Or.inr rfl)
      | some q => cases hw; exact thresholdBucket_mem q
  unfold amendedNumericRule at h
  cases horp : Val.orPy avg avgp with
  | none => rw [horp] at h; cases h
  | nan => rw [horp] at h; exact aux Val.nan h
  | num q => rw [horp] at h; exact aux (Val.num q) h
  | str s2 => rw [horp] at h; exact aux (Val.str s2) h
  | list l => rw [horp] at h; exact aux (Val.list l) h
  | dict dd => rw [horp] at h; exact aux (Val.dict dd) h

theorem amendedTagsRule_mem {t : Val} {b : String}
    (h : amendedTagsRule t = .ok b) :
    b = "low" ∨ b = "medium" ∨ b = "high" ∨ b = "unknown" := by
  unfold amendedTagsRule at h
  have aux : ∀ entries : List (String × Val),
      (match tagPriceOf entries with
       | Val.str s =>
         if (s != "") = true then Except.ok ((symbolOrBucketWord s).getD "unknown")
         else Except.ok "unknown"
       | _ => (Except.ok "unknown" : Except PyErr String)) = .ok b →
      b = "low" ∨ b = "medium" ∨ b = "high" ∨ b = "unknown" := by
    intro entries hw
    have aux2 : ∀ s2 : String,
        (if (s2 != "") = true then
          Except.ok (ε := PyErr) ((symbolOrBucketWord s2).getD "unknown")
        else Except.ok "unknown") = .ok b →
        b = "low" ∨ b = "medium" ∨ b = "high" ∨ b = "unknown" := by
      intro s2 hw2
      by_cases hne : (s2 != "") = true
      · rw [if_pos hne] at hw2
        cases hsw : symbolOrBucketWord s2 with
        | some w =>
          rw [hsw] at hw2
          cases hw2
          rcases symbolOrBucketWord_mem hsw with h5 | h5 | h5
          · exact Or.inl h5
          · exact Or.inr (Or.inl h5)
          · exact Or.inr (Or.inr (Or.inl h5))
        | none => rw [hsw] at hw2; cases hw2; exact Or.inr (Or.inr (Or.inr rfl))
      · rw [if_neg hne] at hw2; cases hw2; exact Or.inr (Or.inr (Or.inr rfl))
    cases htp : tagPriceOf entries with
    | str s => rw [htp] at hw; exact aux2 s hw
    | none => rw [htp] at hw; cases hw; exact Or.inr (Or.inr (Or.inr rfl))
    | nan => rw [htp] at hw; cases hw; exact Or.inr (Or.inr (Or.inr rfl))
    | num q => rw [htp] at hw; cases hw; exact Or.inr (Or.inr (Or.inr rfl))
    | list l => rw [htp] at hw; cases hw; exact Or.inr (Or.inr (Or.inr rfl))
    | dict d2 => rw [htp] at hw; cases hw; exact Or.inr (Or.inr (Or.inr rfl))
  have aux3 : ∀ v : Val,
      (if v.truthy = true then Except.error (α := String) PyErr.attributeErrorGet
       else Except.ok "unknown") = .ok b →
      b = "low" ∨ b = "medium" ∨ b = "high" ∨ b = "unknown" := by
    intro v hv
    by_cases htr : v.truthy = true
    · rw [if_pos htr] at hv; cases hv
    · rw [if_neg htr] at hv; cases hv; exact Or.inr (Or.inr (Or.inr rfl))
  cases hs : safe_parse_tags t with
  | dict entries => rw [hs] at h; exact aux entries h
  | none => rw [hs] at h; exact aux3 Val.none h
  | nan => rw [hs] at h; exact aux3 Val.nan h
  | num q => rw [hs] at h; exact aux3 (Val.num q) h
  | str s => rw [hs] at h; exact aux3 (Val.str s) h
  | list l => rw [hs] at h; exact aux3 (Val.list l) h

theorem specRule1_mem {v : Val} {b : String} (h : specRule1 v = some b) :
    b = "low" ∨ b = "medium" ∨ b = "high" := by
  unfold specRule1 at h
  cases v <;> first
  | exact bucketSpelling_mem h
  | cases h

theorem specRule2_mem {v : Val} {b : String} (h : specRule2 v = some b) :
    b = "low" ∨ b = "medium" ∨ b = "high" := by
  unfold specRule2 at h
  cases v <;> first
  | exact symbolOrBucketWord_mem h
  | cases h

/-- Every bucket the source can compute is one of the four canonical
names. -/
theorem infer_bucket_mem {row : Row} {b : String}
    (h : infer_price_bucket row = .ok b) :
    b = "low" ∨ b = "medium" ∨ b = "high" ∨ b = "unknown" := by
  rw [infer_eq_amended_aux] at h
  unfold amendedPriceBucket at h
  cases h1 : specRule1 row.price_range with
  | some b1 =>
    rw [h1] at h
    simp only [Option.some_orElse] at h
    cases h
    rcases specRule1_mem h1 with h5 | h5 | h5
    · exact Or.inl h5
    · exact Or.inr (Or.inl h5)
    · exact Or.inr (Or.inr (Or.inl h5))
  | none =>
    rw [h1] at h
    simp only [Option.none_orElse] at h
    cases h2 : specRule2 row.price with
    | some b2 =>
      rw [h2] at h
      simp only [Option.some_orElse] at h
      cases h
      rcases specRule2_mem h2 with h5 | h5 | h5
      · exact Or.inl h5
      · exact Or.inr (Or.inl h5)
      · exact Or.inr (Or.inr (Or.inl h5))
    | none =>
      rw [h2] at h
      simp only [Option.none_orElse] at h
      cases h3 : amendedNumericRule row.average_price row.avg_price with
      | some b3 =>
        rw [h3] at h
        cases h
        rcases amendedNumericRule_mem h3 with h5 | h5 | h5
        · exact Or.inl h5
        · exact Or.inr (Or.inl h5)
        · exact Or.inr (Or.inr (Or.inl h5))
      | none =>
        rw [h3] at h
        exact amendedTagsRule_mem h

theorem infer_bucket_ne_empty {row : Row} {b : String}
    (h : infer_price_bucket row = .ok b) : b ≠ "" := by
  rcases infer_bucket_mem h with h5 | h5 | h5 | h5 <;> rw [h5] <;> simp

/-- The preference-price normalization exactly as claim C5 states it,
reading only the `price_range` key: empty or any (after synonym
normalization) means no preference. -/
def claimPrefPrice (pr : Option String) : Option String :=
  let p := pr.getD "any"
  if p != "" && strLower p != "any" then some (priceSynonyms (strStrip (strLower p)))
  else Option.none

/-- The price alignment table exactly as claim C5 states it: 1.0 exact
match, 0.2 unknown bucket, 0.5 adjacent buckets, 0.0 opposite
extremes. -/
def claimScorePrice (p bucket : String) : ℚ :=
  if bucket == p then 1
  else if bucket == "unknown" then 1 / 5
  else if (bucket == "low" && p == "medium") || (bucket == "medium" && p == "low") ||
      (bucket == "medium" && p == "high") || (bucket == "high" && p == "medium") then 1 / 2
  else 0

theorem score_price_of_eq_claim (p bucket : String) (hb : bucket ≠ "") :
    score_price_of p bucket = claimScorePrice p bucket := by
  unfold score_price_of claimScorePrice
  by_cases h1 : bucket = p
  · simp [h1]
  · by_cases h2 : bucket = "unknown"
    · simp [h1, h2]
    · simp [h1, h2, hb]

/-- A one-row frame whose candidate has an explicit low price range. -/
def lowRow : Row := { blankRow with price_range := Val.str "low" }

def dfLow : DFrame := ⟨true, true, false, false, false, [lowRow]⟩

/-- Output row when the preference arrives under the ignored price key. -/
def sLowAlias : ScoredRow :=
  mkScoredRow defaultWeights "" Option.none false 5000 lowRow Option.none "low"

/-- Output row when the preference arrives under price_range. -/
def sLowRange : ScoredRow :=
  mkScoredRow defaultWeights "" (some "low") false 5000 lowRow Option.none "low"

theorem rank_low_alias_eval :
    rank_restaurants hav0 dfLow (some ⟨Option.none, Option.none, some "low"⟩)
      Option.none Option.none = .ok [sLowAlias] := by
  show Except.ok ([sLowAlias].mergeSort rankLe) = _
  rw [List.mergeSort_singleton]

theorem rank_low_range_eval :
    rank_restaurants hav0 dfLow (some ⟨Option.none, some "low", Option.none⟩)
      Option.none Option.none = .ok [sLowRange] := by
  show Except.ok ([sLowRange].mergeSort rankLe) = _
  rw [List.mergeSort_singleton]

/-- Claim C5 as stated is false on the code: the two preference keys are
not honored equivalently.  `rank_restaurants` reads only `price_range`;
a preference under the `price` key is ignored (score 0.0 instead of
1.0 on a matching bucket). -/
theorem rank_price_alias_claim_false :
    ¬ (∀ (hav : ℚ → ℚ → ℚ → ℚ → ℚ) (df : DFrame) (c : Option String) (s : String)
        (uc : Option (ℚ × ℚ)) (weights : Option Weights),
        rank_restaurants hav df (some ⟨c, Option.none, some s⟩) uc weights =
          rank_restaurants hav df (some ⟨c, some s, Option.none⟩) uc weights) := by
  intro h
  have h2 := h hav0 dfLow Option.none "low" Option.none Option.none
  rw [rank_low_alias_eval, rank_low_range_eval] at h2
  have h3 := congrArg (List.map ScoredRow.score_price) (Except.ok.inj h2)
  rw [show [sLowAlias].map ScoredRow.score_price = [0] from rfl,
    show [sLowRange].map ScoredRow.score_price = [1] from rfl] at h3
  exact absurd h3 (by decide)

/-- Claim C5 (amended): only the `price_range` key is read (the `price`
key of the record is ignored); an empty or any preference (after the
Spanish synonym normalization) gives `score_price = 0.0` for every
candidate, otherwise the bucket table applies: exact match 1.0, unknown
bucket 0.2, adjacent buckets 0.5, anything else (in particular the
opposite extremes low and high) 0.0. -/
theorem rank_score_price_amended (hav : ℚ → ℚ → ℚ → ℚ → ℚ) (df : DFrame)
    (c : Option String) (pr x : Option String) (uc : Option (ℚ × ℚ))
    (weights : Option Weights) (out : List ScoredRow)
    (ho : rank_restaurants hav df (some ⟨c, pr, x⟩) uc weights = .ok out) :
    ∀ r ∈ out, r.score_price =
      match claimPrefPrice pr with
      | some p => claimScorePrice p r.price_bucket
      | Option.none => 0 := by
  rcases rank_out_char ho with ⟨dists, buckets, -, hb, -, hmem⟩
  intro r hr
  rcases hmem r hr with ⟨row, d, bk, hbk, hrw⟩
  have hne : bk ≠ "" := by
    rcases mapExcept_ok_mem hb bk hbk with ⟨row2, -, hf⟩
    exact infer_bucket_ne_empty hf
  subst hrw
  show (match prefPriceNormOf (some ⟨c, pr, x⟩) with
        | some p => score_price_of p bk
        | Option.none => (0 : ℚ)) =
       (match claimPrefPrice pr with
        | some p => claimScorePrice p bk
        | Option.none => 0)
  rw [show prefPriceNormOf (some ⟨c, pr, x⟩) = claimPrefPrice pr from rfl]
  cases claimPrefPrice pr with
  | none => rfl
  | some p => exact score_price_of_eq_claim p bk hne

theorem rank_score_price_amended_witness :
    sLowRange.score_price =
      match claimPrefPrice (some "low") with
      | some p => claimScorePrice p sLowRange.price_bucket
      | Option.none => 0 :=
  rank_score_price_amended hav0 dfLow Option.none (some "low") Option.none
    Option.none Option.none [sLowRange] rank_low_range_eval sLowRange
    (List.mem_singleton.mpr rfl)

/-- Claim C10 as stated is false on the code: a non-empty batch exposing
lat and lon can still make the call with a `None` preference record
fail, through a preference-independent row anomaly (a tags text
evaluating to a non-mapping). -/
theorem rank_none_prefs_claim_false :
    ¬ (∀ (hav : ℚ → ℚ → ℚ → ℚ → ℚ) (df : DFrame) (uc : Option (ℚ × ℚ))
        (weights : Option Weights),
        df.hasLat = true → df.hasLon = true → df.rows ≠ [] →
        ∃ out, rank_restaurants hav df Option.none uc weights = .ok out ∧
          ∀ r ∈ out, r.score_cuisine = 0 ∧ r.score_price = 0) := by
  intro h
  obtain ⟨out, hout, -⟩ :=
    h hav0 dfBadTags Option.none Option.none rfl rfl (by simp [dfBadTags])
  rw [show rank_restaurants hav0 dfBadTags Option.none Option.none Option.none =
    .error .attributeErrorGet from rfl] at hout
  cases hout

/-- Claim C10 (amended): a `None` preference record behaves exactly like
a record missing the cuisine and price_range keys (whatever the price
key holds), and whenever such a call returns a result at all, every
candidate has `score_cuisine = 0.0` and `score_price = 0.0`; the call
may still fail for reasons independent of the preferences. -/
theorem rank_default_prefs_amended (hav : ℚ → ℚ → ℚ → ℚ → ℚ) (df : DFrame)
    (uc : Option (ℚ × ℚ)) (weights : Option Weights) (x : Option String) :
    (rank_restaurants hav df Option.none uc weights =
      rank_restaurants hav df (some ⟨Option.none, Option.none, x⟩) uc weights) ∧
    ∀ out, rank_restaurants hav df Option.none uc weights = .ok out →
      ∀ r ∈ out, r.score_cuisine = 0 ∧ r.score_price = 0 := by
  constructor
  · rfl
  · intro out ho r hr
    rcases rank_out_char ho with ⟨dists, buckets, -, -, -, hmem⟩
    rcases hmem r hr with ⟨row, d, bk, -, hrw⟩
    subst hrw
    exact ⟨rfl, rfl⟩

theorem rank_dfLow_none_eval :
    rank_restaurants hav0 dfLow Option.none Option.none Option.none =
      .ok [sLowAlias] := by
  show Except.ok ([sLowAlias].mergeSort rankLe) = _
  rw [List.mergeSort_singleton]

theorem rank_default_prefs_amended_witness :
    (rank_restaurants hav0 dfLow Option.none Option.none Option.none =
      rank_restaurants hav0 dfLow (some ⟨Option.none, Option.none, some "low"⟩)
        Option.none Option.none) ∧
    sLowAlias.score_cuisine = 0 ∧ sLowAlias.score_price = 0 :=
  ⟨(rank_default_prefs_amended hav0 dfLow Option.none Option.none (some "low")).1,
   (rank_default_prefs_amended hav0 dfLow Option.none Option.none (some "low")).2
     [sLowAlias] rank_dfLow_none_eval sLowAlias (List.mem_singleton.mpr rfl)⟩

/-- Claim C7: in every call the normalization reference is the batch
maximum valid distance (5000 m when there is none or it is
non-positive), each known distance d scores `max 0 (1 - d / reference)`,
and a missing distance scores 0 while the candidate stays in the
result (the output has one row per input row). -/
theorem rank_restaurants_distance_spec (hav : ℚ → ℚ → ℚ → ℚ → ℚ) (df : DFrame)
    (prefs : Option Prefs) (uc : Option (ℚ × ℚ)) (weights : Option Weights)
    (dists : List (Option ℚ)) (out : List ScoredRow)
    (hd : computeDistances hav df uc = .ok dists)
    (ho : rank_restaurants hav df prefs uc weights = .ok out) :
    (maxDistRef dists = match (dists.filterMap id).max? with
        | some m => if m ≤ 0 then 5000 else m
        | Option.none => 5000) ∧
    out.length = df.rows.length ∧
    ∀ r ∈ out, r.score_distance =
      match r.distance_m with
      | some d => max 0 (1 - d / maxDistRef dists)
      | Option.none => 0 := by
  rcases rank_out_char ho with ⟨dists2, buckets, hd2, -, hlen, hmem⟩
  have hdd : dists2 = dists := Except.ok.inj (hd2.symm.trans hd)
  subst hdd
  refine ⟨rfl, hlen, ?_⟩
  intro r hr
  rcases hmem r hr with ⟨row, d, bk, -, hrw⟩
  subst hrw
  cases d <;> rfl

def distRowA : Row := { blankRow with distance_m := Val.num 100 }

def dfDist : DFrame := ⟨true, true, false, false, true, [distRowA]⟩

def sDistA : ScoredRow :=
  mkScoredRow defaultWeights "" Option.none false 100 distRowA (some 100) "unknown"

theorem rank_dfDist_eval :
    rank_restaurants hav0 dfDist Option.none Option.none Option.none =
      .ok [sDistA] := by
  show Except.ok ([sDistA].mergeSort rankLe) = _
  rw [List.mergeSort_singleton]

theorem rank_restaurants_distance_spec_witness :
    computeDistances hav0 dfDist Option.none = .ok [some 100] ∧
    [sDistA].length = dfDist.rows.length ∧
    sDistA.score_distance =
      match sDistA.distance_m with
      | some d => max 0 (1 - d / maxDistRef [some 100])
      | Option.none => 0 :=
  ⟨rfl,
   (rank_restaurants_distance_spec hav0 dfDist Option.none Option.none Option.none
      [some 100] [sDistA] rfl rank_dfDist_eval).2.1,
   (rank_restaurants_distance_spec hav0 dfDist Option.none Option.none Option.none
      [some 100] [sDistA] rfl rank_dfDist_eval).2.2 sDistA
     (List.mem_singleton.mpr rfl)⟩

theorem distLe_refl (d : Option ℚ) : distLe d d = true := by
  cases d <;> simp [distLe]

theorem distLe_total (a b : Option ℚ) : (distLe a b || distLe b a) = true := by
  cases a <;> cases b <;> simp [distLe]
  exact le_total _ _

theorem distLe_trans {a b c : Option ℚ} (h1 : distLe a b = true)
    (h2 : distLe b c = true) : distLe a c = true := by
  cases a <;> cases b <;> cases c <;> simp_all [distLe]
  exact le_trans h1 h2

theorem rankLe_total (a b : ScoredRow) : (rankLe a b || rankLe b a) = true := by
  unfold rankLe
  by_cases h : a.score = b.score
  · rw [if_pos h, if_pos h.symm]
    exact distLe_total _ _
  · rw [if_neg h, if_neg (Ne.symm h)]
    rcases lt_or_gt_of_ne h with hlt | hgt
    · simp [hlt]
    · simp [hgt]

theorem rankLe_trans (a b c : ScoredRow) (h1 : rankLe a b = true)
    (h2 : rankLe b c = true) : rankLe a c = true := by
  unfold rankLe at h1 h2 ⊢
  by_cases hab : a.score = b.score <;> by_cases hbc : b.score = c.score
  · rw [if_pos hab] at h1
    rw [if_pos hbc] at h2
    rw [if_pos (hab.trans hbc)]
    exact distLe_trans h1 h2
  · rw [if_neg hbc] at h2
    rw [if_neg (show a.score ≠ c.score from fun h => hbc (hab ▸ h))]
    simp only [decide_eq_true_eq] at h2 ⊢
    rw [hab]
    exact h2
  · rw [if_neg hab] at h1
    rw [if_neg (show a.score ≠ c.score from fun h => hab (h.trans hbc.symm))]
    simp only [decide_eq_true_eq] at h1 ⊢
    rw [← hbc]
    exact h1
  · rw [if_neg hab] at h1
    rw [if_neg hbc] at h2
    simp only [decide_eq_true_eq] at h1 h2
    rw [if_neg (show a.score ≠ c.score from fun h => absurd (h ▸ h2) (lt_asymm h1))]
    simp only [decide_eq_true_eq]
    exact lt_trans h2 h1

theorem pairwise_filter_of {α : Type} (p : α → Bool) (R : α → α → Prop)
    (h : ∀ x y, p x = true → p y = true → R x y) (l : List α) :
    (l.filter p).Pairwise R := by
  induction l with
  | nil => simp
  | cons a as ih =>
    by_cases hp : p a = true
    · rw [List.filter_cons_of_pos hp]
      exact List.Pairwise.cons (fun y hy => h a y hp (List.of_mem_filter hy)) ih
    · rw [List.filter_cons_of_neg (by simpa using hp)]
      exact ih

/-- Claim C6: the output is ordered by score descending with ties broken
by ascending distance (missing distance after all known distances), it
is a permutation of the scored input rows, and for candidates fully
tied on both sort keys the original relative input order is preserved
(the sort is stable). -/
theorem rank_restaurants_sort_spec (hav : ℚ → ℚ → ℚ → ℚ → ℚ) (df : DFrame)
    (prefs : Option Prefs) (uc : Option (ℚ × ℚ)) (weights : Option Weights)
    (pre out : List ScoredRow)
    (hpre : scored_rows hav df prefs uc weights = .ok pre)
    (ho : rank_restaurants hav df prefs uc weights = .ok out) :
    List.Pairwise (fun a b => rankLe a b = true) out ∧
    out.Perm pre ∧
    ∀ q d, out.filter (fun r => decide (r.score = q) && decide (r.distance_m = d)) =
      pre.filter (fun r => decide (r.score = q) && decide (r.distance_m = d)) := by
  rcases rank_ok_inv ho with ⟨pre2, hpre2, hout⟩
  rw [Except.ok.inj (hpre2.symm.trans hpre)] at hout
  subst hout
  refine ⟨?_, ?_, ?_⟩
  · exact List.sorted_mergeSort rankLe_trans rankLe_total pre
  · exact List.mergeSort_perm pre rankLe
  · intro q d
    have hclass : ∀ x y : ScoredRow,
        (decide (x.score = q) && decide (x.distance_m = d)) = true →
        (decide (y.score = q) && decide (y.distance_m = d)) = true →
        rankLe x y = true := by
      intro x y hx hy
      simp only [Bool.and_eq_true, decide_eq_true_eq] at hx hy
      unfold rankLe
      rw [if_pos (hx.1.trans hy.1.symm), hx.2, hy.2]
      exact distLe_refl d
    have hpair := pairwise_filter_of _ _ hclass pre
    have hsub := List.sublist_mergeSort rankLe_trans rankLe_total hpair
      (List.filter_sublist pre)
    have hsub2 := hsub.filter
      (fun r : ScoredRow => decide (r.score = q) && decide (r.distance_m = d))
    have hidem : (pre.filter (fun r : ScoredRow =>
        decide (r.score = q) && decide (r.distance_m = d))).filter
        (fun r : ScoredRow => decide (r.score = q) && decide (r.distance_m = d)) =
        pre.filter (fun r : ScoredRow => decide (r.score = q) && decide (r.distance_m = d)) :=
      List.filter_eq_self.mpr (fun a ha => (List.mem_filter.mp ha).2)
    rw [hidem] at hsub2
    have hperm := (List.mergeSort_perm pre rankLe).filter
      (fun r : ScoredRow => decide (r.score = q) && decide (r.distance_m = d))
    exact (hsub2.eq_of_length hperm.length_eq.symm).symm

/-- The scored form of `blankRow` under default weights and no
preferences. -/
def sBlank : ScoredRow :=
  mkScoredRow defaultWeights "" Option.none false 5000 blankRow Option.none "unknown"

def dfTwoBlank : DFrame := ⟨true, true, false, false, false, [blankRow, blankRow]⟩

theorem scored_dfTwoBlank_eval :
    scored_rows hav0 dfTwoBlank Option.none Option.none Option.none =
      .ok [sBlank, sBlank] := rfl

theorem rankLe_sBlank : rankLe sBlank sBlank = true := by
  unfold rankLe
  rw [if_pos rfl]
  rfl

theorem pairwise_twoBlank :
    List.Pairwise (fun a b => rankLe a b = true) [sBlank, sBlank] :=
  List.pairwise_cons.mpr
    ⟨fun b hb => by rcases List.mem_singleton.mp hb with rfl; exact rankLe_sBlank,
     List.pairwise_singleton _ _⟩

theorem rank_dfTwoBlank_eval :
    rank_restaurants hav0 dfTwoBlank Option.none Option.none Option.none =
      .ok [sBlank, sBlank] := by
  show Except.ok ([sBlank, sBlank].mergeSort rankLe) = _
  rw [List.mergeSort_of_sorted pairwise_twoBlank]

theorem rank_restaurants_sort_spec_witness :
    List.Pairwise (fun a b => rankLe a b = true) [sBlank, sBlank] ∧
    List.Perm [sBlank, sBlank] [sBlank, sBlank] ∧
    [sBlank, sBlank].filter
        (fun r => decide (r.score = sBlank.score) && decide (r.distance_m = Option.none)) =
      [sBlank, sBlank].filter
        (fun r => decide (r.score = sBlank.score) && decide (r.distance_m = Option.none)) :=
  ⟨(rank_restaurants_sort_spec hav0 dfTwoBlank Option.none Option.none Option.none
      [sBlank, sBlank] [sBlank, sBlank] scored_dfTwoBlank_eval rank_dfTwoBlank_eval).1,
   (rank_restaurants_sort_spec hav0 dfTwoBlank Option.none Option.none Option.none
      [sBlank, sBlank] [sBlank, sBlank] scored_dfTwoBlank_eval rank_dfTwoBlank_eval).2.1,
   (rank_restaurants_sort_spec hav0 dfTwoBlank Option.none Option.none Option.none
      [sBlank, sBlank] [sBlank, sBlank] scored_dfTwoBlank_eval rank_dfTwoBlank_eval).2.2
     sBlank.score Option.none⟩

end Recommender
